import Mathlib

/-!
# Verification of the OpenHardwareMonitorDashboard analytics core

A shallow embedding, in Lean 4, of the analytics pipeline of the
OpenHardwareMonitorDashboard repository:

* `backend/app/services/data_processor.py` — log discovery, CSV
  normalization and metric extraction;
* `backend/app/services/insights_engine.py` — anomaly detection,
  insight generation and health aggregation;
* `backend/app/models/hardware_models.py` — the data model;
* `backend/app/core/config.py` — the fixed threshold configuration.

Modeling conventions:

* Machine floats become exact rationals (`ℚ`).  Comparisons against a
  standard deviation (`np.std`, a square root) are embedded as the
  equivalent comparisons on squares, so every predicate stays decidable.
* `datetime` values become integer epoch seconds (`ℤ`); a calendar day
  `d` starts at second `d * 86400`.
* Pandas tables become explicit lists of rows; `NaN` cells become
  `Option.none`.
* Library parsing routines (`datetime.strptime`, `pd.to_datetime`,
  `pd.to_numeric`, `str.replace`) are modeled character-by-character for
  the formats the pipeline actually consumes; each model's doc comment
  records the subset covered.
* Fields of generated objects that are nondeterministic or purely
  presentational (`uuid` ids, `datetime.now()` stamps, `f`-string
  descriptions) are omitted from the embedded records; every field a
  property refers to is kept.
-/

attribute [local semireducible] Rat.add Rat.mul Rat.sub Rat.inv

/-- `MetricType` enumeration (hardware_models.py). -/
inductive MetricType where
  | cpuTemp
  | gpuTemp
  | cpuUsage
  | gpuUsage
  | fanSpeed
  | memoryUsage
  | diskUsage
deriving DecidableEq

/-- `list(MetricType)` in enum declaration order. -/
def allMetricTypes : List MetricType :=
  [.cpuTemp, .gpuTemp, .cpuUsage, .gpuUsage, .fanSpeed, .memoryUsage, .diskUsage]

/-- `InsightLevel` enumeration (hardware_models.py). -/
inductive InsightLevel where
  | info
  | warning
  | critical
  | success
deriving DecidableEq

/-- `AnomalyEvent` (hardware_models.py); the formatted `description`
string is omitted, `expected_range` is split into its two components. -/
structure AnomalyEvent where
  timestamp : ℤ
  value : ℚ
  severity : String
  expectedLo : ℚ
  expectedHi : ℚ
deriving DecidableEq

/-- `TimeSeriesData` (hardware_models.py). -/
structure TimeSeriesData where
  timestamps : List ℤ
  values : List ℚ
  metricType : MetricType
  component : String
  unit : String
deriving DecidableEq

/-- The dict returned by `InsightsEngine._calculate_baseline_stats` for a
non-empty array.  `var` holds the square of the `'std'` entry, so that
all downstream comparisons against the standard deviation can be phrased
exactly on squares. -/
structure BaselineStats where
  mean : ℚ
  median : ℚ
  var : ℚ
  min : ℚ
  max : ℚ
  q25 : ℚ
  q75 : ℚ
  iqr : ℚ
deriving DecidableEq

/-- `HardwareInsight` (hardware_models.py); `id` (a fresh uuid),
`timestamp` (`datetime.now()`), the formatted `description` and the
free-form `data` map are omitted as nondeterministic/presentational. -/
structure HardwareInsight where
  title : String
  level : InsightLevel
  metricType : MetricType
  component : String
  recommendations : List String
  events : List AnomalyEvent
  periodStart : ℤ
  periodEnd : ℤ
  anomalyCount : ℕ
  baselineStats : Option BaselineStats
deriving DecidableEq

/-! ## Configuration (config.py, `AnomalyDetectionConfig`, engine `__init__`) -/

/-- `AnomalyDetectionConfig.z_score_threshold` default. -/
def zScoreThreshold : ℚ := 5 / 2

/-- `AnomalyDetectionConfig.iqr_multiplier` default. -/
def iqrMultiplier : ℚ := 3 / 2

/-- `AnomalyDetectionConfig.min_data_points` default. -/
def minDataPoints : ℕ := 10

/-- One entry of `InsightsEngine.self.thresholds`. -/
structure ThresholdEntry where
  warning : ℚ
  critical : ℚ
  optimalMax : ℚ
deriving DecidableEq

/-- `InsightsEngine.self.thresholds` with the `config.py` defaults
(cpu 80/90, gpu 85/95); `fan_speed` has no entry, matching
`self.thresholds.get(metric_type, {})` returning `{}` for it. -/
def thresholds : MetricType → Option ThresholdEntry
  | .cpuTemp => some ⟨80, 90, 70⟩
  | .gpuTemp => some ⟨85, 95, 75⟩
  | .cpuUsage => some ⟨90, 95, 80⟩
  | .gpuUsage => some ⟨95, 98, 85⟩
  | .fanSpeed => none
  | .memoryUsage => some ⟨85, 95, 75⟩
  | .diskUsage => some ⟨85, 95, 80⟩

/-- `thresholds.get('critical', 100)`. -/
def critOf (mt : MetricType) : ℚ := ((thresholds mt).map (·.critical)).getD 100

/-- `thresholds.get('warning', d)` — the engine uses default 80 at some
call sites and 90 at others, so the default is a parameter. -/
def warnOf (mt : MetricType) (d : ℚ) : ℚ := ((thresholds mt).map (·.warning)).getD d

/-- `thresholds.get('optimal_max', 70)`. -/
def optimalOf (mt : MetricType) : ℚ := ((thresholds mt).map (·.optimalMax)).getD 70

/-- `metric_type in [MetricType.CPU_TEMP, MetricType.GPU_TEMP]`. -/
def isTempMetric (mt : MetricType) : Bool := mt == .cpuTemp || mt == .gpuTemp

/-- `metric_type.value.replace('_', ' ').title()`, precomputed on the
fixed enumeration. -/
def dispName : MetricType → String
  | .cpuTemp => "Cpu Temperature"
  | .gpuTemp => "Gpu Temperature"
  | .cpuUsage => "Cpu Usage"
  | .gpuUsage => "Gpu Usage"
  | .fanSpeed => "Fan Speed"
  | .memoryUsage => "Memory Usage"
  | .diskUsage => "Disk Usage"

/-- `units` dict of `DataProcessor._get_unit_for_metric`. -/
def unitFor : MetricType → String
  | .cpuTemp => "°C"
  | .gpuTemp => "°C"
  | .cpuUsage => "%"
  | .gpuUsage => "%"
  | .fanSpeed => "RPM"
  | .memoryUsage => "%"
  | .diskUsage => "%"

/-! ## Numeric helpers (numpy calls used by the engine) -/

/-- `np.mean` over a list of rationals (0 junk value on `[]`; every call
site guards non-emptiness). -/
def qMean (l : List ℚ) : ℚ := l.sum / l.length

/-- Square of `np.std` (population variance, `ddof = 0`). -/
def qVar (l : List ℚ) : ℚ := ((l.map fun v => (v - qMean l) ^ 2).sum) / l.length

/-- `np.min` (0 junk value on `[]`). -/
def qMin : List ℚ → ℚ
  | [] => 0
  | v :: vs => vs.foldl min v

/-- `np.max` (0 junk value on `[]`). -/
def qMax : List ℚ → ℚ
  | [] => 0
  | v :: vs => vs.foldl max v

/-- `np.percentile(l, p)` with numpy's default linear interpolation:
on the ascending sort `s` of `l`, with `h = (len - 1) * p / 100`, the
result is `s[⌊h⌋] + (h - ⌊h⌋) * (s[⌊h⌋ + 1] - s[⌊h⌋])`. -/
def percentile (l : List ℚ) (p : ℚ) : ℚ :=
  let s := List.insertionSort (· ≤ ·) l
  let h : ℚ := ((s.length : ℚ) - 1) * p / 100
  let i : ℕ := h.floor.toNat
  let lo := s.getD i 0
  let hi := s.getD (i + 1) lo
  lo + (h - (i : ℚ)) * (hi - lo)

/-! ## Character-level parsing helpers

The Python code relies on library parsers (`datetime.strptime`,
`pd.to_datetime`, `pd.to_numeric`).  They are modeled below on
`List Char`, covering exactly the formats the pipeline consumes. -/

/-- Split a character list on every occurrence of `sep`, like Python's
`str.split(sep)` for a one-character separator (so `"" ↦ [""]`). -/
def splitOnChar (sep : Char) (cs : List Char) : List (List Char) :=
  cs.foldr
    (fun c acc =>
      match acc with
      | [] => [[]]
      | g :: gs => if c = sep then [] :: g :: gs else (c :: g) :: gs)
    [[]]

/-- All characters are decimal digits and there is at least one. -/
def isDigits (cs : List Char) : Bool := !cs.isEmpty && cs.all (·.isDigit)

/-- Decimal value of a digit string. -/
def natOfDigits (cs : List Char) : ℕ :=
  cs.foldl (fun n c => n * 10 + (c.toNat - 48)) 0

/-- `Bool`-valued substring test: Python's `needle in haystack`. -/
def hasSub (needle : List Char) : List Char → Bool
  | [] => needle.isEmpty
  | c :: cs => needle.isPrefixOf (c :: cs) || hasSub needle cs

/-- Gregorian leap-year rule, as validated by `datetime`. -/
def isLeap (y : ℕ) : Bool := (y % 4 == 0 && y % 100 != 0) || y % 400 == 0

/-- Days in a month, as validated by `datetime`. -/
def daysInMonth (y m : ℕ) : ℕ :=
  if m = 2 then (if isLeap y then 29 else 28)
  else if m = 4 ∨ m = 6 ∨ m = 9 ∨ m = 11 then 30
  else 31

/-- `datetime.strptime(s, "%Y-%m-%d")` as a validator/parser.  CPython
matches `%Y` against exactly four digits and `%m`/`%d` against one or
two digits (month 1–12, day 1–31, zero-padding optional), requires the
whole string to be consumed, and then `datetime` construction checks the
day against the month's length. -/
def parseDate (s : String) : Option (ℕ × ℕ × ℕ) :=
  match splitOnChar '-' s.data with
  | [ys, ms, ds] =>
    let y := natOfDigits ys
    let m := natOfDigits ms
    let d := natOfDigits ds
    if isDigits ys && ys.length = 4 &&
       isDigits ms && ms.length ≤ 2 && 1 ≤ m && m ≤ 12 &&
       isDigits ds && ds.length ≤ 2 && 1 ≤ d && d ≤ daysInMonth y m
    then some (y, m, d) else none
  | _ => none

/-- `"HH:MM:SS"` clock parsing (the time-of-day part accepted by
`pd.to_datetime` for the log rows this development evaluates). -/
def parseClock (s : List Char) : Option (ℕ × ℕ × ℕ) :=
  match splitOnChar ':' s with
  | [hs, ms, ss] =>
    let h := natOfDigits hs
    let mi := natOfDigits ms
    let sec := natOfDigits ss
    if isDigits hs && hs.length ≤ 2 && h ≤ 23 &&
       isDigits ms && ms.length ≤ 2 && mi ≤ 59 &&
       isDigits ss && ss.length ≤ 2 && sec ≤ 59
    then some (h, mi, sec) else none
  | _ => none

/-- Days since 1970-01-01 of a proleptic-Gregorian date (the civil-days
algorithm used to turn parsed calendar dates into epoch arithmetic). -/
def daysFromCivil (y m d : ℕ) : ℤ :=
  let y2 : ℤ := (y : ℤ) - (if m ≤ 2 then 1 else 0)
  let era : ℤ := y2.fdiv 400
  let yoe : ℤ := y2 - era * 400
  let mp : ℤ := ((m : ℤ) + 9) % 12
  let doy : ℤ := (153 * mp + 2).fdiv 5 + (d : ℤ) - 1
  let doe : ℤ := yoe * 365 + yoe.fdiv 4 - yoe.fdiv 100 + doy
  era * 146097 + doe - 719468

/-- Epoch seconds of a calendar date plus time of day. -/
def epochSeconds (y mo d h mi s : ℕ) : ℤ :=
  daysFromCivil y mo d * 86400 + (h : ℤ) * 3600 + (mi : ℤ) * 60 + (s : ℤ)

/-- `pd.to_datetime(cell, errors='coerce')` restricted to the formats the
logs carry: `"YYYY-MM-DD HH:MM:SS"` or a bare `"YYYY-MM-DD"`; anything
else coerces to `NaT` (`none`). -/
def parseDatetime (s : String) : Option ℤ :=
  match splitOnChar ' ' s.data with
  | [ds, ts] => do
    let (y, mo, d) ← parseDate (String.mk ds)
    let (h, mi, sec) ← parseClock ts
    pure (epochSeconds y mo d h mi sec)
  | [ds] => (parseDate (String.mk ds)).map fun (y, mo, d) => epochSeconds y mo d 0 0 0
  | _ => none

/-- `pd.to_numeric(cell, errors='coerce')` restricted to plain decimal
notation `[-]digits[.digits]`; anything else coerces to `NaN` (`none`). -/
def parseNumeric (s : String) : Option ℚ :=
  let core : List Char → Option ℚ := fun body =>
    match splitOnChar '.' body with
    | [ip] => if isDigits ip then some (natOfDigits ip : ℚ) else none
    | [ip, fp] =>
      if isDigits ip && isDigits fp then
        some ((natOfDigits ip : ℚ) + (natOfDigits fp : ℚ) / (10 : ℚ) ^ fp.length)
      else none
    | _ => none
  match s.data with
  | '-' :: body => (core body).map (fun q => -q)
  | body => core body

/-! ## Log discovery (`DataProcessor.get_available_dates`) -/

/-- The filename tag `"OpenHardwareMonitorLog-"`. -/
def ohmTag : String := "OpenHardwareMonitorLog-"

/-- `stem.replace("OpenHardwareMonitorLog-", "")`: remove every
occurrence of the tag, scanning left to right without overlap (Python's
`str.replace`).  Fuel-indexed so the recursion is structural; the fuel
is the string length, which bounds the number of steps. -/
def dropTagAux (tag : List Char) : ℕ → List Char → List Char
  | _, [] => []
  | 0, cs => cs
  | n + 1, c :: cs =>
    if tag.isPrefixOf (c :: cs) then dropTagAux tag n ((c :: cs).drop tag.length)
    else c :: dropTagAux tag n cs

/-- `stem.replace(ohmTag, "")`. -/
def removeTag (s : String) : String := String.mk (dropTagAux ohmTag.data s.data.length s.data)

/-- The date token the loop derives from one filename stem:
`stem.replace(tag, "")` when `stem.startswith(tag)`, else the stem. -/
def dateToken (stem : String) : String :=
  if ohmTag.data.isPrefixOf stem.data then removeTag stem else stem

/-- Python's `<` on strings: lexicographic comparison of the
code-point sequences. -/
def pyStrLt : List Char → List Char → Bool
  | [], [] => false
  | [], _ :: _ => true
  | _ :: _, [] => false
  | c :: cs, d :: ds => if c = d then pyStrLt cs ds else decide (c < d)

/-- Python's `<=` on strings (`a <= b ↔ ¬ b < a`), the order used by
`sorted` on a list of strings. -/
def pyStrLe (a b : String) : Bool := !pyStrLt b.data a.data

/-- The sort relation used to embed Python's `sorted` on strings. -/
def pyLe (a b : String) : Prop := pyStrLe a b = true

instance : DecidableRel pyLe := fun a b => by unfold pyLe; infer_instance

/-- `DataProcessor.get_available_dates`, as a function of the stems
(`Path(file).stem`) of the `*.csv` files the directory scan yields:
keep each stem's date token when `strptime(token, "%Y-%m-%d")` succeeds,
then `sorted(dates)` — a lexicographic string sort. -/
def getAvailableDates (stems : List String) : List String :=
  List.insertionSort pyLe
    (stems.filterMap fun stem =>
      let tok := dateToken stem
      if (parseDate tok).isSome then some tok else none)

/-- Date-order comparison on tokens, used to state the spec's
"ascending list of dates": compare the parsed `(y, m, d)` triples
encoded as `y * 10000 + m * 100 + d`. -/
def dateVal (s : String) : ℕ :=
  match parseDate s with
  | some (y, m, d) => y * 10000 + m * 100 + d
  | none => 0

/-! ## Period expansion and filtering

`DataProcessor.get_metrics_for_period` selects whole log days:
`start_dt`/`end_dt` are `strptime(date, "%Y-%m-%d")` midnights and the
end is widened by `+ timedelta(days=1) - timedelta(seconds=1)`.
`InsightsEngine.analyze_period` instead parses both bounds to midnight
and hands them to `_filter_data_to_period` unchanged. -/

/-- `datetime.strptime(date, "%Y-%m-%d")` for day index `d`: midnight,
in epoch seconds. -/
def midnightOf (d : ℤ) : ℤ := d * 86400

/-- The date-range filter of `get_metrics_for_period`
(data_processor.py lines 180–194): keep an available day `d` when
`start_dt <= d_midnight <= end_dt + 1 day - 1 second`. -/
def datesInRange (startDay endDay : ℤ) (avail : List ℤ) : List ℤ :=
  let startDt := midnightOf startDay
  let endDtInclusive := midnightOf endDay + 86400 - 1
  avail.filter fun d => decide (startDt ≤ midnightOf d ∧ midnightOf d ≤ endDtInclusive)

/-- `InsightsEngine._filter_data_to_period`: keep the pairs whose
timestamp satisfies `start_dt <= t <= end_dt`. -/
def filterDataToPeriod (md : TimeSeriesData) (startDt endDt : ℤ) : List ℤ × List ℚ :=
  let pairs := (md.timestamps.zip md.values).filter fun p => decide (startDt ≤ p.1 ∧ p.1 ≤ endDt)
  (pairs.map (·.1), pairs.map (·.2))

/-! ## CSV normalization (`DataProcessor.process_csv_data`)

`load_csv_data` reads the file with `header=0`, so the raw table arrives
with the file's first line already installed as the column header and
every remaining line as a row of string cells (`dtype=str`; empty/NA
cells print as `"nan"` but never parse as dates or numbers, so plain
strings model them). -/

/-- A loaded raw table: `header` is the file's first line (installed by
`pd.read_csv(header=0)`), `rows` are the remaining lines. -/
structure RawTable where
  header : List String
  rows : List (List String)
deriving DecidableEq

/-- `'Time' in str(row.iloc[0])`: the leading cell of a row contains the
literal marker `"Time"`. -/
def markerRow (r : List String) : Bool := hasSub "Time".data (r.getD 0 "").data

/-- The header-promotion step of `process_csv_data` (lines 111–126):
find the first row whose leading cell contains `"Time"`; if found,
install that row as the header and drop it — and only it — from the
data (`df.drop(df.index[time_row_idx])`); otherwise leave the table
unchanged (its first-line header stands). -/
def promoteHeader (t : RawTable) : RawTable :=
  match t.rows.findIdx? markerRow with
  | some i => { header := t.rows.getD i [], rows := t.rows.eraseIdx i }
  | none => t

/-- A normalized row: the derived `timestamp` plus the cell values after
numeric coercion (`pd.to_numeric(errors='coerce')`; `none` is `NaN`). -/
structure ProcRow where
  timestamp : ℤ
  cells : List (Option ℚ)
deriving DecidableEq

/-- A normalized table. -/
structure ProcTable where
  header : List String
  rows : List ProcRow
deriving DecidableEq

/-- The time-column choice of `process_csv_data` (lines 129–134): the
first of `Time`, `time`, `timestamp` present in the header (first
occurrence when duplicated), else `none` (timestamps synthesized). -/
def timeColIdx (header : List String) : Option ℕ :=
  if "Time" ∈ header then some (header.indexOf "Time")
  else if "time" ∈ header then some (header.indexOf "time")
  else if "timestamp" ∈ header then some (header.indexOf "timestamp")
  else none

/-- `process_csv_data(df, date)` for a raw table and the day's midnight:
promote the header, derive the timestamp column — parsing the time cell
per row, or `pd.date_range(start=date, periods=len(df), freq='1min')`
when no time column exists — drop rows whose timestamp failed to parse,
and coerce the remaining cells to numbers.  (The source skips the
`Time` column in the numeric pass and keeps its strings; the embedded
table coerces it with the rest, which is indistinguishable downstream
because `extract_metrics` re-applies `pd.to_numeric` to every column it
reads and never reads `Time`.) -/
def processCsvData (t : RawTable) (dateMid : ℤ) : ProcTable :=
  let t2 := promoteHeader t
  let stamped : List (Option ℤ × List String) :=
    match timeColIdx t2.header with
    | some j => t2.rows.map fun r => (parseDatetime (r.getD j ""), r)
    | none => t2.rows.mapIdx fun i r => (some (dateMid + (i : ℤ) * 60), r)
  let kept := stamped.filterMap fun p => p.1.map fun ts => (ts, p.2)
  { header := t2.header
    rows := kept.map fun p => { timestamp := p.1, cells := p.2.map parseNumeric } }

/-! ## Metric extraction (`DataProcessor.extract_metrics`) -/

/-- The `metric_mapping` dict, including the dynamic extension of the
CPU-temperature candidates with every column whose name contains
`"CPU Core #"` (in column order, duplicates kept). -/
def candidateColumns (header : List String) : MetricType → List String
  | .cpuTemp => "CPU Total" :: header.filter fun c => hasSub "CPU Core #".data c.data
  | .gpuTemp => ["GPU Core"]
  | .cpuUsage => ["CPU Total"]
  | .gpuUsage => ["GPU Core"]
  | .fanSpeed => ["GPU Fan"]
  | .memoryUsage => ["Memory"]
  | .diskUsage => ["Used Space"]

/-- The per-column cleaning of `extract_metrics` (lines 290–303): take
the column's first occurrence (`df[col]` yields a frame on duplicate
names and the code keeps `iloc[:, 0]`), pair each row's timestamp with
that cell, and drop the rows whose cell is null. -/
def cleanColumn (t : ProcTable) (col : String) : List (ℤ × ℚ) :=
  let j := t.header.indexOf col
  t.rows.filterMap fun r => (r.cells.getD j none).map fun v => (r.timestamp, v)

/-- One candidate-column attempt of the `extract_metrics` inner loop:
`none` when the column is absent or cleaning leaves no data point
(the loop then continues), otherwise the `(timestamps, values)` pair —
including the source's truncate-to-match step (lines 316–322), a no-op
here because cleaning produces aligned lists. -/
def extractOne (t : ProcTable) (col : String) : Option (List ℤ × List ℚ) :=
  if col ∈ t.header then
    let cleaned := cleanColumn t col
    if cleaned.isEmpty then none
    else
      let values := cleaned.map (·.2)
      let tstamps := cleaned.map (·.1)
      if values.isEmpty then none
      else
        let tstamps2 := if values.length ≤ tstamps.length then tstamps.take values.length else tstamps
        let values2 := if values.length ≤ tstamps.length then values else values.take tstamps.length
        some (tstamps2, values2)
  else none

/-- The candidate loop with its `break`: first successful column wins. -/
def tryCandidates (t : ProcTable) : List String → Option (String × List ℤ × List ℚ)
  | [] => none
  | c :: rest =>
    match extractOne t c with
    | some r => some (c, r)
    | none => tryCandidates t rest

/-- `DataProcessor.extract_metrics` over an explicit requested list
(`metric_types=None` passes `allMetricTypes`): at most one series per
requested type, in request order. -/
def extractMetrics (t : ProcTable) (requested : List MetricType) : List TimeSeriesData :=
  (requested.map fun mt =>
    match tryCandidates t (candidateColumns t.header mt) with
    | some (c, ts, vs) => [TimeSeriesData.mk ts vs mt c (unitFor mt)]
    | none => []).flatten

/-- Modelled from the spec (§4.2 Metric Extraction), for the refinement
proof of the extraction claims: for each requested type in order, the
first candidate column that is present in the table and whose first
occurrence cleans to at least one valid data point wins outright, and a
type with no such candidate is omitted. -/
def extractSpec (t : ProcTable) (requested : List MetricType) : List TimeSeriesData :=
  (requested.map fun mt =>
    match (candidateColumns t.header mt).find? (fun c =>
        decide (c ∈ t.header) && !(cleanColumn t c).isEmpty) with
    | some c =>
      [TimeSeriesData.mk ((cleanColumn t c).map (·.1)) ((cleanColumn t c).map (·.2))
        mt c (unitFor mt)]
    | none => []).flatten

/-! ## Anomaly detection (`InsightsEngine._detect_anomalies`) -/

/-- Z-score flag: `|zscore(values)[i]| > z_score_threshold`.
`stats.zscore` divides by the population standard deviation, so the
comparison is embedded on squares; a zero deviation yields `NaN`
z-scores in the source, and `NaN > threshold` is false, matching the
`0 < qVar` guard. -/
def zFlagged (values : List ℚ) (i : ℕ) : Bool :=
  decide (0 < qVar values ∧ zScoreThreshold ^ 2 * qVar values < (values.getD i 0 - qMean values) ^ 2)

/-- IQR flag: value outside `[q1 - k*iqr, q3 + k*iqr]`. -/
def iqrFlagged (values : List ℚ) (i : ℕ) : Bool :=
  let q1 := percentile values 25
  let q3 := percentile values 75
  let iqr := q3 - q1
  decide (values.getD i 0 < q1 - iqrMultiplier * iqr ∨ q3 + iqrMultiplier * iqr < values.getD i 0)

/-- Fixed-threshold flag, temperature metrics only:
`value >= thresholds.get('critical', 100)`. -/
def thrFlagged (mt : MetricType) (values : List ℚ) (i : ℕ) : Bool :=
  isTempMetric mt && decide (critOf mt ≤ values.getD i 0)

/-- The union `set(z) | set(iqr) | set(threshold)` of flagged indices,
iterated in ascending order (the Python loop iterates a set of small
ints; only membership matters to the pipeline's consumers). -/
def anomalyIndices (mt : MetricType) (values : List ℚ) : List ℕ :=
  (List.range values.length).filter fun i =>
    zFlagged values i || iqrFlagged values i || thrFlagged mt values i

/-- Severity classification of one flagged index (lines 216–228). -/
def severityOf (mt : MetricType) (values : List ℚ) (i : ℕ) : String :=
  if isTempMetric mt then
    if critOf mt ≤ values.getD i 0 then "severe"
    else if warnOf mt 80 ≤ values.getD i 0 then "moderate"
    else "minor"
  else if zFlagged values i && iqrFlagged values i then "moderate"
  else "minor"

/-- Expected range of an anomaly event (lines 230–236): 5th/95th
percentile of the full array when it has at least 10 points, else
min/max. -/
def expectedRange (values : List ℚ) : ℚ × ℚ :=
  if 10 ≤ values.length then (percentile values 5, percentile values 95)
  else (qMin values, qMax values)

/-- `InsightsEngine._detect_anomalies`. -/
def detectAnomalies (values : List ℚ) (timestamps : List ℤ) (mt : MetricType) :
    List AnomalyEvent :=
  if values.length < minDataPoints then []
  else
    (anomalyIndices mt values).map fun i =>
      { timestamp := timestamps.getD i 0
        value := values.getD i 0
        severity := severityOf mt values i
        expectedLo := (expectedRange values).1
        expectedHi := (expectedRange values).2 }

/-! ## Anomaly removal (`InsightsEngine._remove_anomalies`) -/

/-- First index minimizing `|v - x|` over the remaining list, carrying
the running best (`np.argmin` keeps the first minimum). -/
def argminAux (x : ℚ) : List ℚ → ℕ → ℕ → ℚ → ℕ
  | [], _, best, _ => best
  | v :: vs, i, best, bestVal =>
    if |v - x| < bestVal then argminAux x vs (i + 1) i |v - x|
    else argminAux x vs (i + 1) best bestVal

/-- `np.argmin(np.abs(values - x))` (0 junk value on `[]`; the source
would raise there and no caller reaches it). -/
def argminAbs (values : List ℚ) (x : ℚ) : ℕ :=
  match values with
  | [] => 0
  | v :: vs => argminAux x vs 1 0 |v - x|

/-- `values[mask]` for a boolean mask of the same length. -/
def maskFilter : List ℚ → List Bool → List ℚ
  | [], _ => []
  | _, [] => []
  | v :: vs, b :: bs => if b then v :: maskFilter vs bs else maskFilter vs bs

/-- `InsightsEngine._remove_anomalies`: start from an all-true mask,
clear — for each anomaly — the index of the value closest to the
anomaly's recorded value, and keep the still-true positions. -/
def removeAnomalies (values : List ℚ) (anomalies : List AnomalyEvent) : List ℚ :=
  match anomalies with
  | [] => values
  | _ =>
    let mask := anomalies.foldl
      (fun m a =>
        let ci := argminAbs values a.value
        if ci < m.length then m.set ci false else m)
      (List.replicate values.length true)
    maskFilter values mask

/-! ## Baseline statistics (`InsightsEngine._calculate_baseline_stats`) -/

/-- `_calculate_baseline_stats`: `{}` (here `none`) on an empty array,
else the descriptive statistics (`var` in place of `'std'`). -/
def baselineStats (values : List ℚ) : Option BaselineStats :=
  if values.isEmpty then none
  else
    some
      { mean := qMean values
        median := percentile values 50
        var := qVar values
        min := qMin values
        max := qMax values
        q25 := percentile values 25
        q75 := percentile values 75
        iqr := percentile values 75 - percentile values 25 }

/-- `baseline_stats.get('mean', 0)`. -/
def statMean (s : Option BaselineStats) : ℚ := (s.map (·.mean)).getD 0

/-- Square of `baseline_stats.get('std', 0)`. -/
def statVar (s : Option BaselineStats) : ℚ := (s.map (·.var)).getD 0

/-- `sqrt varV > c`, decidably: the standard deviation is the square
root of `varV ≥ 0`, so it exceeds `c` iff `c < 0` or `c² < varV`. -/
def stdGt (varV c : ℚ) : Bool := decide (c < 0 ∨ c ^ 2 < varV)

/-! ## Insight generation (`InsightsEngine`) -/

/-- Recommendation list of the critical-temperature insight. -/
def criticalTempRecs : List String :=
  ["Shutdown intensive applications immediately",
   "Check cooling system functionality",
   "Clean dust from heatsinks and fans",
   "Consider hardware replacement if issue persists"]

/-- `_get_cooling_recommendations`. -/
def coolingRecs (mt : MetricType) : List String :=
  if mt = .cpuTemp then
    ["Clean CPU cooler and heatsink",
     "Reapply thermal paste",
     "Check CPU cooler mounting",
     "Improve case airflow",
     "Consider upgrading CPU cooler"]
  else if mt = .gpuTemp then
    ["Clean GPU heatsink and fans",
     "Check GPU fan speeds",
     "Improve case ventilation",
     "Consider aftermarket GPU cooler",
     "Monitor GPU power consumption"]
  else
    ["Check system cooling",
     "Improve case airflow",
     "Clean dust from components",
     "Monitor ambient temperature"]

/-- Recommendation list of the high-usage insight. -/
def usageRecs : List String :=
  ["Identify resource-intensive applications",
   "Close unnecessary background processes",
   "Consider hardware upgrade if usage is consistently high"]

/-- Recommendation list of the reliability-warning insight. -/
def reliabilityRecs : List String :=
  ["Select a different time period",
   "Check data source quality",
   "Verify monitoring system functionality"]

/-- Recommendation list of the variability insight. -/
def variabilityRecs : List String :=
  ["Monitor for patterns in usage",
   "Check for background processes causing spikes",
   "Verify cooling system consistency"]

/-- Recommendation list of the optimal-temperature insight. -/
def optimalRecs : List String :=
  ["Maintain current cooling setup",
   "Regular cleaning schedule is working",
   "Continue monitoring for changes"]

/-- `_get_anomaly_recommendations`. -/
def anomalyRecs (mt : MetricType) : List String :=
  if isTempMetric mt then
    ["Investigate the cause of temperature spikes",
     "Check for sudden workload changes",
     "Verify cooling system response",
     "Monitor for recurring patterns"]
  else if mt = .cpuUsage ∨ mt = .gpuUsage then
    ["Identify applications causing usage spikes",
     "Check for background processes",
     "Monitor system performance during anomalies",
     "Consider resource allocation optimization"]
  else
    ["Investigate the cause of unusual values",
     "Check system stability during anomalies",
     "Monitor for patterns or correlations",
     "Verify sensor accuracy"]

/-- `InsightsEngine._create_threshold_insight`. -/
def createThresholdInsight (title : String) (level : InsightLevel) (md : TimeSeriesData)
    (startDt endDt : ℤ) (stats : Option BaselineStats) (recs : List String) :
    HardwareInsight :=
  { title := title
    level := level
    metricType := md.metricType
    component := md.component
    recommendations := recs
    events := []
    periodStart := startDt
    periodEnd := endDt
    anomalyCount := 0
    baselineStats := stats }

/-- `InsightsEngine._create_anomaly_insight`: critical if any severe
event, else warning if any moderate, else info. -/
def createAnomalyInsight (md : TimeSeriesData) (anomalies : List AnomalyEvent)
    (stats : Option BaselineStats) (startDt endDt : ℤ) : HardwareInsight :=
  let level : InsightLevel :=
    if anomalies.any (·.severity == "severe") then .critical
    else if anomalies.any (·.severity == "moderate") then .warning
    else .info
  { title := "Anomaly Detection - " ++ dispName md.metricType
    level := level
    metricType := md.metricType
    component := md.component
    recommendations := anomalyRecs md.metricType
    events := anomalies
    periodStart := startDt
    periodEnd := endDt
    anomalyCount := anomalies.length
    baselineStats := stats }

/-- `InsightsEngine._generate_threshold_insights`: temperature metrics
compare the clean maximum against critical (default 100) then warning
(default 80); usage-class metrics compare the baseline mean against
warning (default 90); a reliability warning is appended when the
detector's fallback path was taken. -/
def generateThresholdInsights (md : TimeSeriesData) (clean : List ℚ)
    (stats : Option BaselineStats) (startDt endDt : ℤ) (reliabilityWarning : Bool) :
    List HardwareInsight :=
  let mt := md.metricType
  if clean.isEmpty then []
  else
    let maxVal := qMax clean
    let meanVal := statMean stats
    let tempPart : List HardwareInsight :=
      if isTempMetric mt then
        if critOf mt ≤ maxVal then
          [createThresholdInsight ("Critical " ++ dispName mt) .critical md
            startDt endDt stats criticalTempRecs]
        else if warnOf mt 80 ≤ maxVal then
          [createThresholdInsight ("High " ++ dispName mt) .warning md
            startDt endDt stats (coolingRecs mt)]
        else []
      else []
    let usagePart : List HardwareInsight :=
      if mt = .cpuUsage ∨ mt = .gpuUsage ∨ mt = .memoryUsage then
        if warnOf mt 90 ≤ meanVal then
          [createThresholdInsight ("High " ++ dispName mt) .warning md
            startDt endDt stats usageRecs]
        else []
      else []
    let reliabilityPart : List HardwareInsight :=
      if reliabilityWarning then
        [createThresholdInsight ("Data Reliability Warning - " ++ dispName mt) .warning md
          startDt endDt stats reliabilityRecs]
      else []
    tempPart ++ usagePart ++ reliabilityPart

/-- `InsightsEngine._generate_performance_insights`: with at least five
clean points, an info insight when the standard deviation exceeds 30% of
the mean, and — for temperature metrics — a success insight when the
mean is at or below `optimal_max` (default 70). -/
def generatePerformanceInsights (md : TimeSeriesData) (clean : List ℚ)
    (stats : Option BaselineStats) (startDt endDt : ℤ) : List HardwareInsight :=
  let mt := md.metricType
  if clean.length < 5 then []
  else
    let meanVal := statMean stats
    let variabilityPart : List HardwareInsight :=
      if stdGt (statVar stats) (meanVal * (3 / 10)) then
        [createThresholdInsight ("Variable " ++ dispName mt) .info md
          startDt endDt stats variabilityRecs]
      else []
    let optimalPart : List HardwareInsight :=
      if isTempMetric mt then
        if meanVal ≤ optimalOf mt then
          [createThresholdInsight ("Optimal " ++ dispName mt) .success md
            startDt endDt stats optimalRecs]
        else []
      else []
    variabilityPart ++ optimalPart

/-- `InsightsEngine._analyze_metric_with_anomalies` with the period
bounds `analyze_period` provides: filter to the period, detect and
remove anomalies, fall back to the unfiltered values (raising the
reliability flag) when removal leaves fewer than `min_data_points`,
then run the anomaly, threshold and performance stages. -/
def analyzeMetricWithAnomalies (md : TimeSeriesData) (startDt endDt : ℤ) :
    List HardwareInsight :=
  if md.values.length < minDataPoints then []
  else
    let filtered := filterDataToPeriod md startDt endDt
    if filtered.2.isEmpty then []
    else
      let values := filtered.2
      let tstamps := filtered.1
      let anomalies := detectAnomalies values tstamps md.metricType
      let removed := removeAnomalies values anomalies
      let reliabilityWarning := removed.length < minDataPoints
      let clean := if reliabilityWarning then values else removed
      let stats := baselineStats clean
      let anomalyPart : List HardwareInsight :=
        if anomalies.isEmpty then []
        else [createAnomalyInsight md anomalies stats startDt endDt]
      anomalyPart ++ generateThresholdInsights md clean stats startDt endDt reliabilityWarning
        ++ generatePerformanceInsights md clean stats startDt endDt

/-! ## Cross-metric thermal-throttling check
(`InsightsEngine._generate_cross_metric_insights`, lines 507–533) -/

/-- `cpu_temp_values[cpu_usage_values > 80]`. -/
def highUsageTemps (tempVals usageVals : List ℚ) : List ℚ :=
  maskFilter tempVals (usageVals.map fun u => decide (80 < u))

/-- The thermal-throttling trigger: some usage value exceeds 80 and the
mean temperature at those positions exceeds 85. -/
def throttleCheck (tempVals usageVals : List ℚ) : Bool :=
  let hu := highUsageTemps tempVals usageVals
  !hu.isEmpty && decide (85 < qMean hu)

/-! ## Health aggregation (`InsightsEngine.get_health_summary`) -/

/-- Count of insights at one level. -/
def countLevel (insights : List HardwareInsight) (lv : InsightLevel) : ℕ :=
  (insights.filter (·.level == lv)).length

/-- The `overall_health` if-chain (lines 699–707). -/
def overallHealth (insights : List HardwareInsight) : String :=
  if 0 < countLevel insights .critical then "critical"
  else if 0 < countLevel insights .warning then "warning"
  else if countLevel insights .info < countLevel insights .success then "good"
  else "normal"

/-- `len([i for i in insights if i.recommendations])`. -/
def recommendationCount (insights : List HardwareInsight) : ℕ :=
  (insights.filter fun i => !i.recommendations.isEmpty).length

/-! ## Order properties of the embedded Python string comparison -/

theorem pyStrLt_irrefl (cs : List Char) : pyStrLt cs cs = false := by
  induction cs with
  | nil => rfl
  | cons c cs ih => simpa [pyStrLt] using ih

theorem pyStrLt_trans {a b c : List Char} (hab : pyStrLt a b = true)
    (hbc : pyStrLt b c = true) : pyStrLt a c = true := by
  induction a generalizing b c with
  | nil =>
    cases b with
    | nil => simp [pyStrLt] at hab
    | cons y ys =>
      cases c with
      | nil => simp [pyStrLt] at hbc
      | cons z zs => rfl
  | cons x xs ih =>
    cases b with
    | nil => simp [pyStrLt] at hab
    | cons y ys =>
      cases c with
      | nil => simp [pyStrLt] at hbc
      | cons z zs =>
        simp only [pyStrLt] at hab hbc ⊢
        by_cases hxy : x = y
        · subst hxy
          simp only [if_pos rfl] at hab
          by_cases hyz : x = z
          · subst hyz
            simp only [if_pos rfl] at hbc ⊢
            exact ih hab hbc
          · simpa [hyz] using hbc
        · simp only [if_neg hxy, decide_eq_true_eq] at hab
          by_cases hyz : y = z
          · subst hyz
            simpa [hxy] using hab
          · simp only [if_neg hyz, decide_eq_true_eq] at hbc
            have hxz : x < z := lt_trans hab hbc
            have : x ≠ z := ne_of_lt hxz
            simp [this, hxz]

theorem pyStrLt_total (a b : List Char) :
    pyStrLt a b = true ∨ a = b ∨ pyStrLt b a = true := by
  induction a generalizing b with
  | nil =>
    cases b with
    | nil => exact Or.inr (Or.inl rfl)
    | cons y ys => exact Or.inl rfl
  | cons x xs ih =>
    cases b with
    | nil => exact Or.inr (Or.inr rfl)
    | cons y ys =>
      by_cases hxy : x = y
      · subst hxy
        rcases ih ys with h | h | h
        · exact Or.inl (by simpa [pyStrLt] using h)
        · exact Or.inr (Or.inl (by rw [h]))
        · exact Or.inr (Or.inr (by simpa [pyStrLt] using h))
      · rcases lt_trichotomy x y with h | h | h
        · exact Or.inl (by simp [pyStrLt, hxy, h])
        · exact absurd h hxy
        · exact Or.inr (Or.inr (by simp [pyStrLt, Ne.symm hxy, h]))

theorem pyLe_iff {a b : String} : pyLe a b ↔ pyStrLt b.data a.data = false := by
  unfold pyLe pyStrLe
  cases h : pyStrLt b.data a.data <;> simp

instance : IsTrans String pyLe where
  trans a b c hab hbc := by
    rw [pyLe_iff] at hab hbc ⊢
    by_contra hc
    have hca : pyStrLt c.data a.data = true := by
      cases h : pyStrLt c.data a.data
      · exact absurd h hc
      · rfl
    rcases pyStrLt_total a.data b.data with h | h | h
    · have := pyStrLt_trans hca h
      rw [hbc] at this; cases this
    · rw [h] at hca
      rw [hbc] at hca; cases hca
    · rw [hab] at h; cases h

instance : IsTotal String pyLe where
  total a b := by
    rw [pyLe_iff, pyLe_iff]
    rcases pyStrLt_total a.data b.data with h | h | h
    · left
      by_contra hc
      have h2 : pyStrLt b.data a.data = true := by
        cases hx : pyStrLt b.data a.data
        · exact absurd hx hc
        · rfl
      have := pyStrLt_trans h2 h
      rw [pyStrLt_irrefl] at this; cases this
    · left; rw [h]; exact pyStrLt_irrefl _
    · right
      by_contra hc
      have h2 : pyStrLt a.data b.data = true := by
        cases hx : pyStrLt a.data b.data
        · exact absurd hx hc
        · rfl
      have := pyStrLt_trans h2 h
      rw [pyStrLt_irrefl] at this; cases this

instance : IsAntisymm String pyLe where
  antisymm a b hab hba := by
    rw [pyLe_iff] at hab hba
    rcases pyStrLt_total a.data b.data with h | h | h
    · rw [hba] at h; cases h
    · cases a; cases b; cases h; rfl
    · rw [hab] at h; cases h

/-! ## Helper lemmas: date listing -/

theorem getAvailableDates_sorted (stems : List String) :
    List.Sorted pyLe (getAvailableDates stems) :=
  List.sorted_insertionSort pyLe _

theorem getAvailableDates_mem (stems : List String) (t : String) :
    t ∈ getAvailableDates stems ↔
      ∃ s ∈ stems, dateToken s = t ∧ (parseDate t).isSome = true := by
  unfold getAvailableDates
  rw [(List.perm_insertionSort pyLe _).mem_iff, List.mem_filterMap]
  constructor
  · rintro ⟨s, hs, hmap⟩
    by_cases hp : (parseDate (dateToken s)).isSome = true
    · refine ⟨s, hs, ?_, ?_⟩
      · simp only [hp, if_true, Option.some_inj] at hmap
        exact hmap
      · simp only [hp, if_true, Option.some_inj] at hmap
        rw [← hmap]; exact hp
    · simp only [Bool.not_eq_true] at hp
      simp [hp] at hmap
  · rintro ⟨s, hs, htok, hp⟩
    refine ⟨s, hs, ?_⟩
    rw [htok, if_pos hp]

theorem getAvailableDates_perm_invariant {stems1 stems2 : List String}
    (h : stems1.Perm stems2) : getAvailableDates stems1 = getAvailableDates stems2 := by
  unfold getAvailableDates
  have h1 := List.sorted_insertionSort pyLe (stems1.filterMap fun stem =>
    let tok := dateToken stem
    if (parseDate tok).isSome then some tok else none)
  have h2 := List.sorted_insertionSort pyLe (stems2.filterMap fun stem =>
    let tok := dateToken stem
    if (parseDate tok).isSome then some tok else none)
  exact List.eq_of_perm_of_sorted
    (((List.perm_insertionSort pyLe _).trans (h.filterMap _)).trans
      (List.perm_insertionSort pyLe _).symm) h1 h2

/-! ## Helper lemmas: anomaly removal -/

theorem maskFilter_sublist (v : List ℚ) (m : List Bool) : (maskFilter v m).Sublist v := by
  induction v generalizing m with
  | nil => simp [maskFilter]
  | cons x xs ih =>
    cases m with
    | nil => simp [maskFilter]
    | cons b bs =>
      cases b with
      | false => exact (ih bs).cons x
      | true => simpa [maskFilter] using (ih bs).cons₂ x

theorem maskFilter_replicate (v : List ℚ) :
    maskFilter v (List.replicate v.length true) = v := by
  induction v with
  | nil => rfl
  | cons x xs ih => simpa [maskFilter, List.replicate] using ih

theorem maskFilter_length (v : List ℚ) (m : List Bool) (h : m.length = v.length) :
    (maskFilter v m).length = m.count true := by
  induction v generalizing m with
  | nil =>
    cases m with
    | nil => rfl
    | cons b bs => simp at h
  | cons x xs ih =>
    cases m with
    | nil => simp at h
    | cons b bs =>
      simp only [List.length_cons, Nat.succ_inj] at h
      cases b with
      | false => simp [maskFilter, ih bs h, List.count_cons]
      | true => simp [maskFilter, ih bs h, List.count_cons]

theorem count_true_set_false (m : List Bool) (i : ℕ) :
    m.count true ≤ (m.set i false).count true + 1 := by
  induction m generalizing i with
  | nil => simp
  | cons b bs ih =>
    cases i with
    | zero =>
      cases b
      · simp [List.count_cons]
      · simp [List.count_cons]
    | succ j =>
      have := ih j
      cases b <;> simp only [List.set, List.count_cons] <;> omega

/-- Length preservation and the at-most-one-cleared-bit-per-step bound
for a fold over the anomaly list. -/
theorem fold_mask_invariant (step : List Bool → AnomalyEvent → List Bool)
    (hlen : ∀ m a, (step m a).length = m.length)
    (hcnt : ∀ m a, m.count true ≤ (step m a).count true + 1)
    (anomalies : List AnomalyEvent) (m : List Bool) :
    (anomalies.foldl step m).length = m.length ∧
      m.count true ≤ (anomalies.foldl step m).count true + anomalies.length := by
  induction anomalies generalizing m with
  | nil => simp
  | cons a as ih =>
    simp only [List.foldl_cons, List.length_cons]
    obtain ⟨ih1, ih2⟩ := ih (step m a)
    refine ⟨by rw [ih1, hlen], ?_⟩
    have := hcnt m a
    omega

theorem argminAux_lt (x : ℚ) (vs : List ℚ) (i best : ℕ) (bv : ℚ) (h : best < i) :
    argminAux x vs i best bv < i + vs.length := by
  induction vs generalizing i best bv with
  | nil => simpa [argminAux] using Nat.lt_of_lt_of_le h (Nat.le_refl i)
  | cons v vs ih =>
    simp only [argminAux, List.length_cons]
    by_cases hc : |v - x| < bv
    · simp only [if_pos hc]
      have := ih (i + 1) i |v - x| (Nat.lt_succ_self i)
      omega
    · simp only [if_neg hc]
      have := ih (i + 1) best bv (Nat.lt_succ_of_lt h)
      omega

theorem argminAbs_lt (v : List ℚ) (x : ℚ) (h : 0 < v.length) :
    argminAbs v x < v.length := by
  cases v with
  | nil => simp at h
  | cons y ys =>
    have := argminAux_lt x ys 1 0 |y - x| Nat.one_pos
    simp only [argminAbs, List.length_cons]
    omega

theorem maskFilter_set_false (v : List ℚ) (i : ℕ) (h : i < v.length) :
    maskFilter v ((List.replicate v.length true).set i false) = v.eraseIdx i := by
  induction v generalizing i with
  | nil => simp at h
  | cons x xs ih =>
    cases i with
    | zero =>
      simp [List.replicate, maskFilter, List.set, maskFilter_replicate]
    | succ j =>
      have hj : j < xs.length := by simpa using h
      simp [List.replicate, List.set, maskFilter, ih j hj, List.eraseIdx]

/-! ## Helper lemmas: metric extraction -/

theorem extractOne_eq (t : ProcTable) (col : String) :
    extractOne t col =
      if col ∈ t.header ∧ (cleanColumn t col).isEmpty = false then
        some ((cleanColumn t col).map (·.1), (cleanColumn t col).map (·.2))
      else none := by
  unfold extractOne
  by_cases h1 : col ∈ t.header
  · cases hc : cleanColumn t col with
    | nil => simp [h1, hc]
    | cons p ps =>
      have hlen : ((p :: ps).map (·.2)).length ≤ ((p :: ps).map (·.1)).length := by
        simp
      have htake : ((p :: ps).map (·.1)).take ((p :: ps).map (·.2)).length
          = (p :: ps).map (·.1) := by
        rw [List.length_map, ← List.length_map (p :: ps) (·.1), List.take_length]
      simp [h1, hc, hlen, htake]
  · simp [h1]

theorem tryCandidates_eq_find (t : ProcTable) (cands : List String) :
    tryCandidates t cands =
      (cands.find? fun c => decide (c ∈ t.header) && !(cleanColumn t c).isEmpty).map
        fun c => (c, (cleanColumn t c).map (·.1), (cleanColumn t c).map (·.2)) := by
  induction cands with
  | nil => rfl
  | cons c rest ih =>
    rw [tryCandidates, extractOne_eq]
    by_cases h : c ∈ t.header ∧ (cleanColumn t c).isEmpty = false
    · have hp : (decide (c ∈ t.header) && !(cleanColumn t c).isEmpty) = true := by
        simp [h.1, h.2]
      rw [if_pos h]
      have hfind := List.find?_cons_of_pos
        (p := fun s => decide (s ∈ t.header) && !(cleanColumn t s).isEmpty) rest hp
      rw [hfind]
      rfl
    · have hp : (decide (c ∈ t.header) && !(cleanColumn t c).isEmpty) = false := by
        by_contra hb
        have hb2 : (decide (c ∈ t.header) && !(cleanColumn t c).isEmpty) = true := by
          cases hx : (decide (c ∈ t.header) && !(cleanColumn t c).isEmpty)
          · exact absurd hx hb
          · rfl
        simp only [Bool.and_eq_true, decide_eq_true_eq, Bool.not_eq_eq_eq_not,
          Bool.not_true] at hb2
        exact h ⟨hb2.1, by simpa using hb2.2⟩
      rw [if_neg h, ih]
      have hfind := List.find?_cons_of_neg
        (p := fun s => decide (s ∈ t.header) && !(cleanColumn t s).isEmpty) (a := c) rest
        (by simp [hp])
      rw [hfind]

theorem filterMap_cells_congr (j : ℕ) (rows1 rows2 : List ProcRow)
    (hr : List.Forall₂
      (fun r1 r2 : ProcRow =>
        r1.timestamp = r2.timestamp ∧ r1.cells.getD j none = r2.cells.getD j none)
      rows1 rows2) :
    rows1.filterMap (fun r => (r.cells.getD j none).map fun v => (r.timestamp, v))
      = rows2.filterMap (fun r => (r.cells.getD j none).map fun v => (r.timestamp, v)) := by
  induction hr with
  | nil => rfl
  | cons hpair _ ih =>
    simp only [List.filterMap_cons]
    rw [hpair.1, hpair.2, ih]

/-- Cleaning a column reads only each row's timestamp and the cell at
the column's first occurrence: tables agreeing there clean equally. -/
theorem cleanColumn_first_occurrence (t1 t2 : ProcTable) (col : String)
    (hh : t1.header = t2.header)
    (hr : List.Forall₂
      (fun r1 r2 : ProcRow =>
        r1.timestamp = r2.timestamp ∧
          r1.cells.getD (t1.header.indexOf col) none
            = r2.cells.getD (t1.header.indexOf col) none)
      t1.rows t2.rows) :
    cleanColumn t1 col = cleanColumn t2 col := by
  unfold cleanColumn
  rw [← hh]
  exact filterMap_cells_congr (t1.header.indexOf col) t1.rows t2.rows hr

/-- `extractOne` reads only the header, the timestamps and the first
occurrence of the requested column. -/
theorem extractOne_first_occurrence (t1 t2 : ProcTable) (col : String)
    (hh : t1.header = t2.header)
    (hr : List.Forall₂
      (fun r1 r2 : ProcRow =>
        r1.timestamp = r2.timestamp ∧
          r1.cells.getD (t1.header.indexOf col) none
            = r2.cells.getD (t1.header.indexOf col) none)
      t1.rows t2.rows) :
    extractOne t1 col = extractOne t2 col := by
  rw [extractOne_eq, extractOne_eq, cleanColumn_first_occurrence t1 t2 col hh hr, hh]

/-! ## Helper lemmas: health aggregation -/

theorem countLevel_pos_iff (insights : List HardwareInsight) (lv : InsightLevel) :
    0 < countLevel insights lv ↔ ∃ i ∈ insights, i.level = lv := by
  unfold countLevel
  rw [List.length_pos]
  constructor
  · intro h
    rcases List.exists_mem_of_ne_nil _ h with ⟨i, hi⟩
    rcases List.mem_filter.mp hi with ⟨hmem, hlv⟩
    exact ⟨i, hmem, by simpa using hlv⟩
  · rintro ⟨i, hmem, hlv⟩
    intro hnil
    have : i ∈ insights.filter (·.level == lv) :=
      List.mem_filter.mpr ⟨hmem, by simp [hlv]⟩
    rw [hnil] at this
    cases this

/-! ## Helper lemmas: header promotion -/

theorem findIdx?_marker_first (l : List (List String)) (i acc : ℕ)
    (hi : i < l.length) (hm : markerRow (l.getD i []) = true)
    (hf : ∀ j, j < i → markerRow (l.getD j []) = false) :
    List.findIdx? markerRow l acc = some (acc + i) := by
  induction l generalizing i acc with
  | nil => simp at hi
  | cons r rs ih =>
    cases i with
    | zero =>
      rw [List.findIdx?_cons, if_pos (by simpa using hm)]
      simp
    | succ j =>
      have h0 : markerRow r = false := by simpa using hf 0 j.succ_pos
      rw [List.findIdx?_cons, if_neg (by simp [h0])]
      have := ih j (acc + 1) (by simpa using hi) (by simpa using hm)
        (fun k hk => by simpa using hf (k + 1) (Nat.succ_lt_succ hk))
      rw [this]
      congr 1
      omega

theorem findIdx?_marker_none (l : List (List String)) (acc : ℕ)
    (hf : ∀ r ∈ l, markerRow r = false) :
    List.findIdx? markerRow l acc = none := by
  induction l generalizing acc with
  | nil => rfl
  | cons r rs ih =>
    rw [List.findIdx?_cons, if_neg (by simp [hf r (List.mem_cons_self r rs)])]
    exact ih (acc + 1) fun s hs => hf s (List.mem_cons_of_mem r hs)

/-! ## Claim theorems -/

/-- C1: the claim states that range filtering keeps every record with
`start 00:00:00 ≤ t ≤ end 23:59:59` in both `get_metrics_for_period`
and the per-metric filtering of `analyze_period`.  Evaluated at the
failing input: for the one-day range `[day 0, day 0]`,
`get_metrics_for_period` does select day 0 (so a record stamped
`day 0 23:59:59` reaches the combined series), the record's timestamp
86399 lies inside the claimed inclusive window, yet `analyze_period`
hands `_filter_data_to_period` the bounds `(midnight, midnight)` —
`strptime` of both dates — and the record is dropped. -/
theorem C1_end_date_filter_bug :
    datesInRange 0 0 [0] = [0] ∧
    (midnightOf 0 ≤ 86399 ∧ (86399 : ℤ) ≤ midnightOf 0 + 86400 - 1) ∧
    filterDataToPeriod (TimeSeriesData.mk [86399] [55] .cpuTemp "cpu" "°C")
      (midnightOf 0) (midnightOf 0) = ([], []) := by
  decide

/-- C6: anomaly detection with the default configuration on
`[1,…,9,100,200]` returns events carrying both the value 100 and the
value 200. -/
theorem C6_default_config_flags_100_and_200 :
    ((detectAnomalies [1, 2, 3, 4, 5, 6, 7, 8, 9, 100, 200]
        [0, 60, 120, 180, 240, 300, 360, 420, 480, 540, 600] .cpuUsage).any
      fun a => decide (a.value = 100)) = true ∧
    ((detectAnomalies [1, 2, 3, 4, 5, 6, 7, 8, 9, 100, 200]
        [0, 60, 120, 180, 240, 300, 360, 420, 480, 540, 600] .cpuUsage).any
      fun a => decide (a.value = 200)) = true := by
  decide

/-- C8: anomaly removal with an empty anomaly list is the identity. -/
theorem C8_remove_no_anomalies_identity (values : List ℚ) :
    removeAnomalies values [] = values := rfl

/-- C3, counterexample: with both a bare and a tag-prefixed file for
2024-01-03 plus a non-padded `2024-1-2` (all accepted by `strptime`),
`get_available_dates` returns a list with a duplicate, and its
lexicographic order is not ascending date order. -/
theorem C3_counterexample :
    getAvailableDates ["2024-01-03", "2024-1-2", "OpenHardwareMonitorLog-2024-01-03"]
      = ["2024-01-03", "2024-01-03", "2024-1-2"] ∧
    ¬ (getAvailableDates ["2024-01-03", "2024-1-2",
        "OpenHardwareMonitorLog-2024-01-03"]).Nodup ∧
    ¬ List.Sorted (fun a b => dateVal a ≤ dateVal b)
      (getAvailableDates ["2024-01-03", "2024-1-2", "OpenHardwareMonitorLog-2024-01-03"]) := by
  refine ⟨by decide, by decide, by decide⟩

/-- C3, amended: `get_available_dates` returns the lexicographically
sorted list of the date tokens that parse (excluding every stem whose
token fails `strptime`), and the result is the same whatever order the
directory scan enumerates the files in; duplicates survive, and for
non-zero-padded tokens lexicographic order is not date order. -/
theorem C3_dates_sorted_amended (stems stems2 : List String) (hperm : stems.Perm stems2) :
    List.Sorted pyLe (getAvailableDates stems) ∧
    (∀ t, t ∈ getAvailableDates stems ↔
      ∃ s ∈ stems, dateToken s = t ∧ (parseDate t).isSome = true) ∧
    getAvailableDates stems = getAvailableDates stems2 :=
  ⟨getAvailableDates_sorted stems, getAvailableDates_mem stems,
    getAvailableDates_perm_invariant hperm⟩

/-- Witness for C3: the amended theorem applied at a concrete two-file
directory listing and its transposition. -/
theorem C3_dates_sorted_witness :
    List.Sorted pyLe (getAvailableDates ["2024-01-18", "OpenHardwareMonitorLog-2024-01-15"]) ∧
    (∀ t, t ∈ getAvailableDates ["2024-01-18", "OpenHardwareMonitorLog-2024-01-15"] ↔
      ∃ s ∈ ["2024-01-18", "OpenHardwareMonitorLog-2024-01-15"],
        dateToken s = t ∧ (parseDate t).isSome = true) ∧
    getAvailableDates ["2024-01-18", "OpenHardwareMonitorLog-2024-01-15"]
      = getAvailableDates ["OpenHardwareMonitorLog-2024-01-15", "2024-01-18"] :=
  C3_dates_sorted_amended _ _
    (List.Perm.swap "OpenHardwareMonitorLog-2024-01-15" "2024-01-18" [])

/-- C4, counterexample: a table whose marker row is preceded by a
decorative row with a parseable time cell.  The marker row is at index
1 and row 0 is not a marker, yet after full normalization the preceding
row survives into the output (its 99 value is the first data row),
refuting "drops all rows that precede it". -/
theorem C4_counterexample :
    markerRow ["Time", "CPU Total"] = true ∧
    markerRow ["2024-01-01 01:00:00", "99"] = false ∧
    (processCsvData
        (RawTable.mk ["sensor-id", "x"]
          [["2024-01-01 01:00:00", "99"], ["Time", "CPU Total"],
           ["2024-01-01 02:00:00", "50"]]) 0).header = ["Time", "CPU Total"] ∧
    ((processCsvData
        (RawTable.mk ["sensor-id", "x"]
          [["2024-01-01 01:00:00", "99"], ["Time", "CPU Total"],
           ["2024-01-01 02:00:00", "50"]]) 0).rows.map (·.cells))
      = [[none, some 99], [none, some 50]] := by
  refine ⟨by decide, by decide, by decide, by decide⟩

/-- C4, amended: header promotion installs the first marker row as the
header and drops exactly that row — rows that precede it are kept
(subject only to the later timestamp-validity filter) — and a table
with no marker row is left unchanged, its first-line header standing. -/
theorem C4_header_promotion_amended (t : RawTable) :
    (∀ i, i < t.rows.length → markerRow (t.rows.getD i []) = true →
      (∀ j, j < i → markerRow (t.rows.getD j []) = false) →
      (promoteHeader t).header = t.rows.getD i [] ∧
        (promoteHeader t).rows = t.rows.take i ++ t.rows.drop (i + 1)) ∧
    ((∀ r ∈ t.rows, markerRow r = false) → promoteHeader t = t) := by
  constructor
  · intro i hi hm hf
    unfold promoteHeader
    rw [findIdx?_marker_first t.rows i 0 hi hm hf, Nat.zero_add]
    exact ⟨rfl, List.eraseIdx_eq_take_drop_succ t.rows i⟩
  · intro hf
    unfold promoteHeader
    rw [findIdx?_marker_none t.rows 0 hf]

/-- Witness for C4: the amended theorem applied at a concrete table
(marker at index 1) and at a concrete marker-free table. -/
theorem C4_header_promotion_witness :
    ((promoteHeader (RawTable.mk ["h"] [["deco"], ["Time"], ["x"]])).header = ["Time"] ∧
      (promoteHeader (RawTable.mk ["h"] [["deco"], ["Time"], ["x"]])).rows
        = [["deco"], ["x"]]) ∧
    promoteHeader (RawTable.mk ["h"] [["a"], ["b"]])
      = RawTable.mk ["h"] [["a"], ["b"]] := by
  constructor
  · have h := (C4_header_promotion_amended (RawTable.mk ["h"] [["deco"], ["Time"], ["x"]])).1
      1 (by decide) (by decide) (by decide)
    exact ⟨h.1, h.2⟩
  · exact (C4_header_promotion_amended (RawTable.mk ["h"] [["a"], ["b"]])).2 (by decide)

/-- C5: `get_health_summary` grades `overall_health` as critical iff
some critical insight exists; else warning iff some warning exists;
else good iff the success count strictly exceeds the info count; else
normal — and its recommendation count is the number of insights
carrying at least one recommendation string. -/
theorem C5_health_summary (insights : List HardwareInsight) :
    (overallHealth insights = "critical" ↔ ∃ i ∈ insights, i.level = .critical) ∧
    (overallHealth insights = "warning" ↔
      (¬ ∃ i ∈ insights, i.level = .critical) ∧ ∃ i ∈ insights, i.level = .warning) ∧
    (overallHealth insights = "good" ↔
      (¬ ∃ i ∈ insights, i.level = .critical) ∧ (¬ ∃ i ∈ insights, i.level = .warning) ∧
        countLevel insights .info < countLevel insights .success) ∧
    (overallHealth insights = "normal" ↔
      (¬ ∃ i ∈ insights, i.level = .critical) ∧ (¬ ∃ i ∈ insights, i.level = .warning) ∧
        countLevel insights .success ≤ countLevel insights .info) ∧
    recommendationCount insights
      = (insights.filter fun i => i.recommendations ≠ []).length := by
  have hc := countLevel_pos_iff insights .critical
  have hw := countLevel_pos_iff insights .warning
  refine ⟨?_, ?_, ?_, ?_, ?_⟩
  · unfold overallHealth
    by_cases h1 : 0 < countLevel insights .critical
    · rw [if_pos h1]
      exact iff_of_true rfl (hc.mp h1)
    · rw [if_neg h1]
      have hnc : ¬ ∃ i ∈ insights, i.level = .critical := fun hex => h1 (hc.mpr hex)
      by_cases h2 : 0 < countLevel insights .warning
      · rw [if_pos h2]
        exact iff_of_false (by decide) (fun hex => hnc hex)
      · rw [if_neg h2]
        by_cases h3 : countLevel insights .info < countLevel insights .success
        · rw [if_pos h3]
          exact iff_of_false (by decide) (fun hex => hnc hex)
        · rw [if_neg h3]
          exact iff_of_false (by decide) (fun hex => hnc hex)
  · unfold overallHealth
    by_cases h1 : 0 < countLevel insights .critical
    · rw [if_pos h1]
      exact iff_of_false (by decide) (fun h => h.1 (hc.mp h1))
    · rw [if_neg h1]
      have hnc : ¬ ∃ i ∈ insights, i.level = .critical := fun hex => h1 (hc.mpr hex)
      by_cases h2 : 0 < countLevel insights .warning
      · rw [if_pos h2]
        exact iff_of_true rfl ⟨hnc, hw.mp h2⟩
      · rw [if_neg h2]
        have hnw : ¬ ∃ i ∈ insights, i.level = .warning := fun hex => h2 (hw.mpr hex)
        by_cases h3 : countLevel insights .info < countLevel insights .success
        · rw [if_pos h3]
          exact iff_of_false (by decide) (fun h => hnw h.2)
        · rw [if_neg h3]
          exact iff_of_false (by decide) (fun h => hnw h.2)
  · unfold overallHealth
    by_cases h1 : 0 < countLevel insights .critical
    · rw [if_pos h1]
      exact iff_of_false (by decide) (fun h => h.1 (hc.mp h1))
    · rw [if_neg h1]
      have hnc : ¬ ∃ i ∈ insights, i.level = .critical := fun hex => h1 (hc.mpr hex)
      by_cases h2 : 0 < countLevel insights .warning
      · rw [if_pos h2]
        exact iff_of_false (by decide) (fun h => h.2.1 (hw.mp h2))
      · rw [if_neg h2]
        have hnw : ¬ ∃ i ∈ insights, i.level = .warning := fun hex => h2 (hw.mpr hex)
        by_cases h3 : countLevel insights .info < countLevel insights .success
        · rw [if_pos h3]
          exact iff_of_true rfl ⟨hnc, hnw, h3⟩
        · rw [if_neg h3]
          exact iff_of_false (by decide) (fun h => h3 h.2.2)
  · unfold overallHealth
    by_cases h1 : 0 < countLevel insights .critical
    · rw [if_pos h1]
      exact iff_of_false (by decide) (fun h => h.1 (hc.mp h1))
    · rw [if_neg h1]
      have hnc : ¬ ∃ i ∈ insights, i.level = .critical := fun hex => h1 (hc.mpr hex)
      by_cases h2 : 0 < countLevel insights .warning
      · rw [if_pos h2]
        exact iff_of_false (by decide) (fun h => h.2.1 (hw.mp h2))
      · rw [if_neg h2]
        have hnw : ¬ ∃ i ∈ insights, i.level = .warning := fun hex => h2 (hw.mpr hex)
        by_cases h3 : countLevel insights .info < countLevel insights .success
        · rw [if_pos h3]
          exact iff_of_false (by decide) (fun h => by omega)
        · rw [if_neg h3]
          exact iff_of_true rfl ⟨hnc, hnw, by omega⟩
  · unfold recommendationCount
    congr 1
    apply List.filter_congr
    intro i _
    cases hx : i.recommendations <;> simp [hx]

/-- Witness for C5: the characterization applied to a concrete
one-element insight list. -/
theorem C5_health_summary_witness :
    (overallHealth [HardwareInsight.mk "t" .critical .cpuTemp "cpu" [] [] 0 0 0 none]
        = "critical" ↔
      ∃ i ∈ [HardwareInsight.mk "t" .critical .cpuTemp "cpu" [] [] 0 0 0 none],
        i.level = .critical) ∧
    (overallHealth [HardwareInsight.mk "t" .critical .cpuTemp "cpu" [] [] 0 0 0 none]
        = "warning" ↔
      (¬ ∃ i ∈ [HardwareInsight.mk "t" .critical .cpuTemp "cpu" [] [] 0 0 0 none],
        i.level = .critical) ∧
      ∃ i ∈ [HardwareInsight.mk "t" .critical .cpuTemp "cpu" [] [] 0 0 0 none],
        i.level = .warning) ∧
    (overallHealth [HardwareInsight.mk "t" .critical .cpuTemp "cpu" [] [] 0 0 0 none]
        = "good" ↔
      (¬ ∃ i ∈ [HardwareInsight.mk "t" .critical .cpuTemp "cpu" [] [] 0 0 0 none],
        i.level = .critical) ∧
      (¬ ∃ i ∈ [HardwareInsight.mk "t" .critical .cpuTemp "cpu" [] [] 0 0 0 none],
        i.level = .warning) ∧
      countLevel [HardwareInsight.mk "t" .critical .cpuTemp "cpu" [] [] 0 0 0 none] .info
        < countLevel [HardwareInsight.mk "t" .critical .cpuTemp "cpu" [] [] 0 0 0 none]
            .success) ∧
    (overallHealth [HardwareInsight.mk "t" .critical .cpuTemp "cpu" [] [] 0 0 0 none]
        = "normal" ↔
      (¬ ∃ i ∈ [HardwareInsight.mk "t" .critical .cpuTemp "cpu" [] [] 0 0 0 none],
        i.level = .critical) ∧
      (¬ ∃ i ∈ [HardwareInsight.mk "t" .critical .cpuTemp "cpu" [] [] 0 0 0 none],
        i.level = .warning) ∧
      countLevel [HardwareInsight.mk "t" .critical .cpuTemp "cpu" [] [] 0 0 0 none] .success
        ≤ countLevel [HardwareInsight.mk "t" .critical .cpuTemp "cpu" [] [] 0 0 0 none]
            .info) ∧
    recommendationCount [HardwareInsight.mk "t" .critical .cpuTemp "cpu" [] [] 0 0 0 none]
      = ([HardwareInsight.mk "t" .critical .cpuTemp "cpu" [] [] 0 0 0 none].filter
          fun i => i.recommendations ≠ []).length :=
  C5_health_summary [HardwareInsight.mk "t" .critical .cpuTemp "cpu" [] [] 0 0 0 none]

/-- C2, counterexample: a ten-point CPU-temperature series over a
ten-day period with values `[60,62,64,66,68,70,72,74,76,84]`.  No
detector flags any point, the clean mean is 69.6 ≤ 70 (the claim's
premise holds and the Success "optimal" insight is emitted), yet the
clean maximum 84 meets the 80 °C warning threshold, so a Warning-level
insight is emitted for the same metric and period simultaneously. -/
theorem C2_counterexample :
    statMean (baselineStats [60, 62, 64, 66, 68, 70, 72, 74, 76, 84])
        ≤ optimalOf .cpuTemp ∧
    ((analyzeMetricWithAnomalies
        (TimeSeriesData.mk
          [0, 86400, 172800, 259200, 345600, 432000, 518400, 604800, 691200, 777600]
          [60, 62, 64, 66, 68, 70, 72, 74, 76, 84] .cpuTemp "CPU Total" "°C")
        0 777600).any
      fun i => decide (i.level = .success) && decide (i.title = "Optimal Cpu Temperature"))
        = true ∧
    ((analyzeMetricWithAnomalies
        (TimeSeriesData.mk
          [0, 86400, 172800, 259200, 345600, 432000, 518400, 604800, 691200, 777600]
          [60, 62, 64, 66, 68, 70, 72, 74, 76, 84] .cpuTemp "CPU Total" "°C")
        0 777600).any
      fun i => decide (i.level = .warning)) = true := by
  refine ⟨by decide, by decide, by decide⟩

/-- C2, amended: for a temperature metric with at least five clean data
points whose baseline mean is at or below the metric's optimal ceiling,
the performance stage emits the Success-level "optimal" insight;
a Warning-level insight may however be emitted for the same metric and
period simultaneously (see the counterexample). -/
theorem C2_optimal_mean_success (md : TimeSeriesData) (clean : List ℚ) (s e : ℤ)
    (htemp : isTempMetric md.metricType = true)
    (hlen : 5 ≤ clean.length)
    (hmean : statMean (baselineStats clean) ≤ optimalOf md.metricType) :
    ∃ ins ∈ generatePerformanceInsights md clean (baselineStats clean) s e,
      ins.level = .success ∧ ins.title = "Optimal " ++ dispName md.metricType := by
  refine ⟨createThresholdInsight ("Optimal " ++ dispName md.metricType) .success md s e
    (baselineStats clean) optimalRecs, ?_, rfl, rfl⟩
  unfold generatePerformanceInsights
  rw [if_neg (by omega)]
  apply List.mem_append_right
  rw [if_pos htemp, if_pos hmean]
  exact List.mem_singleton_self _

/-- Witness for C2: the amended theorem at a constant 60 °C five-point
series. -/
theorem C2_optimal_mean_success_witness :
    ∃ ins ∈ generatePerformanceInsights
        (TimeSeriesData.mk [0, 60, 120, 180, 240] [60, 60, 60, 60, 60] .cpuTemp "cpu" "°C")
        [60, 60, 60, 60, 60] (baselineStats [60, 60, 60, 60, 60]) 0 240,
      ins.level = .success ∧ ins.title = "Optimal Cpu Temperature" :=
  C2_optimal_mean_success
    (TimeSeriesData.mk [0, 60, 120, 180, 240] [60, 60, 60, 60, 60] .cpuTemp "cpu" "°C")
    [60, 60, 60, 60, 60] 0 240 (by decide) (by decide) (by decide)

/-- C9: on a non-empty value array, anomaly removal returns an
order-preserving sublist of the input whose length is at least
`len(values) - len(anomalies)` (each anomaly clears at most one mask
bit), and a single anomaly removes exactly the element of the array
nearest in value to the anomaly's recorded value — the first such
occurrence, which need not be the originally flagged index. -/
theorem C9_removal_invariants (values : List ℚ) (anomalies : List AnomalyEvent)
    (a : AnomalyEvent) (h : 0 < values.length) :
    (removeAnomalies values anomalies).Sublist values ∧
    values.length - anomalies.length ≤ (removeAnomalies values anomalies).length ∧
    removeAnomalies values [a] = values.eraseIdx (argminAbs values a.value) := by
  refine ⟨?_, ?_, ?_⟩
  · cases anomalies with
    | nil => exact List.Sublist.refl values
    | cons a1 as => exact maskFilter_sublist values _
  · cases anomalies with
    | nil =>
      show values.length - [].length ≤ values.length
      omega
    | cons a1 as =>
      have hinv := fold_mask_invariant
        (fun m e =>
          let ci := argminAbs values e.value
          if ci < m.length then m.set ci false else m)
        (fun m e => by
          by_cases hci : argminAbs values e.value < m.length
          · simp [hci]
          · simp [hci])
        (fun m e => by
          by_cases hci : argminAbs values e.value < m.length
          · simpa [hci] using count_true_set_false m (argminAbs values e.value)
          · simp [hci])
        (a1 :: as) (List.replicate values.length true)
      have hrep : (List.replicate values.length true).count true = values.length := by
        simp
      have hlen := maskFilter_length values _ (by rw [hinv.1, List.length_replicate])
      show values.length - (a1 :: as).length ≤ (maskFilter values _).length
      rw [hlen]
      omega
  · have hci : argminAbs values a.value < values.length := argminAbs_lt values a.value h
    show maskFilter values
        ([a].foldl
          (fun m e =>
            let ci := argminAbs values e.value
            if ci < m.length then m.set ci false else m)
          (List.replicate values.length true))
      = values.eraseIdx (argminAbs values a.value)
    rw [List.foldl_cons, List.foldl_nil]
    simp only [List.length_replicate]
    rw [if_pos hci]
    exact maskFilter_set_false values (argminAbs values a.value) hci

/-- Witness for C9: removal invariants at `[1, 2, 100]` with one
anomaly recorded at value 100. -/
theorem C9_removal_invariants_witness :
    (removeAnomalies [1, 2, 100] [AnomalyEvent.mk 0 100 "minor" 1 2]).Sublist [1, 2, 100] ∧
    ([1, 2, 100] : List ℚ).length - [AnomalyEvent.mk 0 100 "minor" 1 2].length
      ≤ (removeAnomalies [1, 2, 100] [AnomalyEvent.mk 0 100 "minor" 1 2]).length ∧
    removeAnomalies [1, 2, 100] [AnomalyEvent.mk 0 100 "minor" 1 2]
      = ([1, 2, 100] : List ℚ).eraseIdx
          (argminAbs [1, 2, 100] (AnomalyEvent.mk 0 100 "minor" 1 2).value) :=
  C9_removal_invariants [1, 2, 100] [AnomalyEvent.mk 0 100 "minor" 1 2]
    (AnomalyEvent.mk 0 100 "minor" 1 2) (by decide)

/-- C7: metric extraction equals its specification — for each requested
type, in request order, the first candidate column present in the table
whose (first-occurrence) cleaning yields at least one valid data point
wins outright, later matching candidates are never merged in, and a
type with no such column contributes nothing (no error, no
placeholder); moreover extraction reads only the first occurrence of a
duplicated column name: two tables with the same header whose rows
agree on timestamps and on the first occurrence's cells extract
identically from that column. -/
theorem C7_extraction_first_candidate_wins (t : ProcTable) (requested : List MetricType)
    (t1 t2 : ProcTable) (col : String) (hh : t1.header = t2.header)
    (hr : List.Forall₂
      (fun r1 r2 : ProcRow =>
        r1.timestamp = r2.timestamp ∧
          r1.cells.getD (t1.header.indexOf col) none
            = r2.cells.getD (t1.header.indexOf col) none)
      t1.rows t2.rows) :
    extractMetrics t requested = extractSpec t requested ∧
      extractOne t1 col = extractOne t2 col := by
  refine ⟨?_, extractOne_first_occurrence t1 t2 col hh hr⟩
  unfold extractMetrics extractSpec
  congr 1
  refine congrArg (fun f => List.map f requested) ?_
  funext mt
  rw [tryCandidates_eq_find]
  cases hx : (candidateColumns t.header mt).find? fun c =>
      decide (c ∈ t.header) && !(cleanColumn t c).isEmpty with
  | none => rfl
  | some c => rfl

/-- Witness for C7: the refinement applied at a concrete one-column
table and request list. -/
theorem C7_extraction_witness :
    extractMetrics (ProcTable.mk ["CPU Total"] [ProcRow.mk 0 [some 50]])
        [.cpuTemp, .fanSpeed]
      = extractSpec (ProcTable.mk ["CPU Total"] [ProcRow.mk 0 [some 50]])
          [.cpuTemp, .fanSpeed] ∧
    extractOne (ProcTable.mk ["CPU Total"] [ProcRow.mk 0 [some 50]]) "CPU Total"
      = extractOne (ProcTable.mk ["CPU Total"] [ProcRow.mk 0 [some 50]]) "CPU Total" :=
  C7_extraction_first_candidate_wins
    (ProcTable.mk ["CPU Total"] [ProcRow.mk 0 [some 50]]) [.cpuTemp, .fanSpeed]
    (ProcTable.mk ["CPU Total"] [ProcRow.mk 0 [some 50]])
    (ProcTable.mk ["CPU Total"] [ProcRow.mk 0 [some 50]]) "CPU Total" rfl
    (List.Forall₂.cons ⟨rfl, rfl⟩ List.Forall₂.nil)

/-- C10: when a processed table has a `"CPU Total"` column with at
least one valid data point, requesting CPU temperature and CPU usage
yields two series extracted from that same column — identical timestamp
and value sequences, differing only in metric type and unit (°C versus
%) — and the period filtering that feeds the cross-metric
thermal-throttling check therefore produces identical arrays for both,
so the check compares the column's values against themselves. -/
theorem C10_cpu_total_shared_series (t : ProcTable)
    (hmem : "CPU Total" ∈ t.header)
    (hne : (cleanColumn t "CPU Total").isEmpty = false) :
    ∃ ts vs,
      extractMetrics t [.cpuTemp, .cpuUsage]
        = [TimeSeriesData.mk ts vs .cpuTemp "CPU Total" "°C",
           TimeSeriesData.mk ts vs .cpuUsage "CPU Total" "%"] ∧
      ∀ s e, filterDataToPeriod (TimeSeriesData.mk ts vs .cpuTemp "CPU Total" "°C") s e
        = filterDataToPeriod (TimeSeriesData.mk ts vs .cpuUsage "CPU Total" "%") s e := by
  refine ⟨(cleanColumn t "CPU Total").map (·.1), (cleanColumn t "CPU Total").map (·.2),
    ?_, fun s e => rfl⟩
  have he : extractOne t "CPU Total"
      = some ((cleanColumn t "CPU Total").map (·.1), (cleanColumn t "CPU Total").map (·.2)) := by
    rw [extractOne_eq, if_pos ⟨hmem, hne⟩]
  unfold extractMetrics
  simp only [candidateColumns, tryCandidates, he, List.map_cons, List.map_nil]
  rfl

/-- Witness for C10: the shared-column property at a concrete
two-row table. -/
theorem C10_cpu_total_shared_witness :
    ∃ ts vs,
      extractMetrics (ProcTable.mk ["Time", "CPU Total"]
          [ProcRow.mk 0 [none, some 55], ProcRow.mk 60 [none, some 60]])
          [.cpuTemp, .cpuUsage]
        = [TimeSeriesData.mk ts vs .cpuTemp "CPU Total" "°C",
           TimeSeriesData.mk ts vs .cpuUsage "CPU Total" "%"] ∧
      ∀ s e, filterDataToPeriod (TimeSeriesData.mk ts vs .cpuTemp "CPU Total" "°C") s e
        = filterDataToPeriod (TimeSeriesData.mk ts vs .cpuUsage "CPU Total" "%") s e :=
  C10_cpu_total_shared_series
    (ProcTable.mk ["Time", "CPU Total"]
      [ProcRow.mk 0 [none, some 55], ProcRow.mk 60 [none, some 60]])
    (by decide) (by decide)
